import Mathlib

/-!
Verification of the media-delivery gateway in `src/server.js`.

The embedding below translates the pure decision logic of the server:
format selection (`pickFormat` with its quality parsing), byte-range
negotiation (`parseRangeHeader`), extraction-error mapping
(`mapYtdlError`), the per-request resource teardown (`cleanup`), and the
pre-stream decision structure of the `/api/media` handler.

Library calls into `ytdl-core` (`chooseFormat`, `filterFormats`) are not
part of this repository's sources; they are modelled from the spec's
quality rule and filter description, and are marked as such.
-/

namespace PlayerAudio

/-- One stream variant descriptor, as consumed by `pickFormat`
(`fmt.hasVideo`, `fmt.hasAudio`, `fmt.itag`, `fmt.container`,
`fmt.mimeType`, `fmt.contentLength`, plus the ordered quality key the
spec calls `qualityRank`). -/
structure Format where
  itag : Nat
  hasVideo : Bool
  hasAudio : Bool
  qualityRank : Nat
  container : Option String
  mimeType : Option String
  contentLength : Option Nat
deriving DecidableEq

/-- Result of `parseQuality` (`src/server.js` lines 39-45): the string
`'highest'`, the string `'lowest'`, or a numeric itag. -/
inductive Quality where
  | highest
  | lowest
  | exact (itag : Nat)
deriving DecidableEq

/-- Decimal digit run to a natural number (JS `Number` on a digit string). -/
def digitsToNat (ds : List Char) : Nat :=
  ds.foldl (fun n c => n * 10 + (c.toNat - 48)) 0

/-- `parseQuality` from `src/server.js` lines 39-45.  A missing or empty
value gives `highest`; the literals `highest`/`lowest` give themselves; a
numeric value gives an exact itag request; anything else falls back to
`highest`.  JS `Number(value)` also accepts decimals and exponents; itags
are integers, and the claims are insensitive to the numeric parse beyond
integer identifiers, so numeric detection is modelled as a nonempty
digit string. -/
def parseQuality (value : Option String) : Quality :=
  match value with
  | none => Quality.highest
  | some v =>
    if v = "" then Quality.highest
    else if v = "highest" then Quality.highest
    else if v = "lowest" then Quality.lowest
    else if v.toList.all Char.isDigit then Quality.exact (digitsToNat v.toList)
    else Quality.highest

namespace ytdl

/-- Modelled from the spec: the `Highest` quality rule of
`ytdl.chooseFormat` (ytdl-core is an external dependency, not in `src/`):
order candidates by `qualityRank` and take the maximum, ties broken by
preferring the variant listed first among equals. -/
def maxByRank : List Format → Option Format
  | [] => none
  | f :: rest =>
    match maxByRank rest with
    | none => some f
    | some g => if g.qualityRank > f.qualityRank then some g else some f

/-- Modelled from the spec: the `Lowest` quality rule of
`ytdl.chooseFormat`: take the minimum `qualityRank`, ties broken by
preferring the variant listed first among equals. -/
def minByRank : List Format → Option Format
  | [] => none
  | f :: rest =>
    match minByRank rest with
    | none => some f
    | some g => if g.qualityRank < f.qualityRank then some g else some f

/-- Modelled from the spec: `ytdl.chooseFormat(formats, {quality})`
(ytdl-core is an external dependency, not in `src/`).  `ExactID(id)`
selects the variant whose identifier equals `id` and behaves as `Highest`
when none matches; `Highest`/`Lowest` take the `qualityRank` extremes.
Failure on an empty candidate list is modelled as `none`. -/
def chooseFormat (formats : List Format) : Quality → Option Format
  | Quality.highest => maxByRank formats
  | Quality.lowest => minByRank formats
  | Quality.exact id =>
    match formats.find? (fun f => f.itag == id) with
    | some f => some f
    | none => maxByRank formats

/-- Modelled from the spec: `ytdl.filterFormats(formats, 'audioonly')`
(ytdl-core is an external dependency, not in `src/`): keep the variants
with `hasAudio ∧ ¬hasVideo`. -/
def filterFormatsAudioonly (formats : List Format) : List Format :=
  formats.filter (fun f => f.hasAudio && !f.hasVideo)

end ytdl

/-- The shape returned by `pickFormat`: a possible single chosen format,
a possible external-mux pair (`videoFormat`, `audioFormat`), and the
`isMuxed` flag.  Fields the JS object leaves undefined are `none`. -/
structure Selection where
  format : Option Format
  videoFormat : Option Format
  audioFormat : Option Format
  isMuxed : Bool
deriving DecidableEq

/-- `pickFormat` from `src/server.js` lines 61-84, with
`enableFfmpeg` already coerced to a boolean by the caller. -/
def pickFormat (formats : List Format) (type : String) (quality : Option String)
    (enableFfmpeg : Bool) : Selection :=
  let qualityPref := parseQuality quality
  if type == "audio" then
    let audioFormats := ytdl.filterFormatsAudioonly formats
    ⟨ytdl.chooseFormat audioFormats qualityPref, none, none, false⟩
  else
    let muxed := formats.filter (fun fmt => fmt.hasVideo && fmt.hasAudio)
    if muxed.length ≠ 0 then
      ⟨ytdl.chooseFormat muxed qualityPref, none, none, true⟩
    else if enableFfmpeg = false then
      ⟨none, none, none, false⟩
    else
      let videoOnly := formats.filter (fun fmt => fmt.hasVideo && !fmt.hasAudio)
      let audioOnly := formats.filter (fun fmt => fmt.hasAudio && !fmt.hasVideo)
      ⟨none, ytdl.chooseFormat videoOnly qualityPref,
        ytdl.chooseFormat audioOnly Quality.highest, false⟩

/-- A byte-range serving window; `endIdx` embeds the JS field `end`
(a Lean keyword). -/
structure RangeWindow where
  start : Nat
  endIdx : Nat
deriving DecidableEq

/-- Case-insensitive match of the literal `bytes=` at the head of the
character list, as the `/bytes=/i` part of the regex in
`parseRangeHeader`; returns the remainder on success. -/
def stripBytesEq : List Char → Option (List Char)
  | b :: y :: t :: e :: s :: q :: rest =>
    if (b == 'b' || b == 'B') && (y == 'y' || y == 'Y') && (t == 't' || t == 'T')
        && (e == 'e' || e == 'E') && (s == 's' || s == 'S') && q == '=' then
      some rest
    else none
  | _ => none

/-- Maximal leading digit run (the greedy `\d+` / `\d*` of the regex). -/
def takeDigits : List Char → List Char × List Char
  | [] => ([], [])
  | c :: cs =>
    if c.isDigit then
      let p := takeDigits cs
      (c :: p.1, p.2)
    else ([], c :: cs)

/-- One attempted match of `/bytes=(\d+)-(\d*)/i` anchored at the head of
the list: `bytes=` case-insensitively, then a nonempty digit run, then
`-`, then a possibly empty digit run.  Returns the two capture groups. -/
def tryRangeMatch (s : List Char) : Option (List Char × List Char) :=
  match stripBytesEq s with
  | none => none
  | some rest =>
    let p1 := takeDigits rest
    if p1.1 = [] then none
    else
      match p1.2 with
      | '-' :: rest2 => some (p1.1, (takeDigits rest2).1)
      | _ => none

/-- `/bytes=(\d+)-(\d*)/i.exec(s)`: the first position at which the
pattern matches, scanning left to right. -/
def findRangeMatch : List Char → Option (List Char × List Char)
  | [] => none
  | c :: cs =>
    match tryRangeMatch (c :: cs) with
    | some r => some r
    | none => findRangeMatch cs

/-- `parseRangeHeader` from `src/server.js` lines 86-94.  `none` inputs
are JS `undefined`; a known size of `0` is falsy in JS (`!size`) and so
also yields `null`.  The `Number.isFinite` guards of the source are
vacuous here because digit strings are read into `Nat`. -/
def parseRangeHeader (rangeHeader : Option String) (size : Option Nat) :
    Option RangeWindow :=
  match rangeHeader, size with
  | some h, some sz =>
    if sz = 0 then none
    else
      match findRangeMatch h.toList with
      | none => none
      | some (d1, d2) =>
        let start := digitsToNat d1
        let e := if d2 ≠ [] then digitsToNat d2 else sz - 1
        if start > e then none else some ⟨start, e⟩
  | _, _ => none

/-- `true` when `pat` occurs at the head of `s` (character-exact). -/
def leadsWith : List Char → List Char → Bool
  | [], _ => true
  | _ :: _, [] => false
  | a :: as, b :: bs => a == b && leadsWith as bs

/-- JS `s.includes(pat)`: `pat` occurs contiguously somewhere in `s`. -/
def hasSubstr (s pat : String) : Bool :=
  go s.toList pat.toList
where
  go : List Char → List Char → Bool
    | [], p => p.isEmpty
    | c :: cs, p => leadsWith p (c :: cs) || go cs p

/-- `mapYtdlError` from `src/server.js` lines 96-104, taking the error
message string (the source first coerces the error to a string). -/
def mapYtdlError (message : String) : Nat × String :=
  if hasSubstr message "private" then (403, "Video is private.")
  else if hasSubstr message "age-restricted" then (403, "Video is age restricted.")
  else if hasSubstr message "410" then (410, "Video is no longer available.")
  else if hasSubstr message "403" then (403, "Access forbidden (possible throttling).")
  else if hasSubstr message "Live" then (400, "Livestreams are not supported.")
  else (500, "Failed to fetch media.")

/-- The per-request resource registry of the handler
(`src/server.js` lines 156-157): the `activeStreams` array (streams named
by identifiers) and the optional `ffmpegProcess` handle. -/
structure Resources where
  activeStreams : List Nat
  ffmpegProcess : Option Nat
deriving DecidableEq

/-- An observable teardown effect: destroying one stream
(`stream.destroy()`) or killing the external process
(`ffmpegProcess.kill('SIGKILL')`). -/
inductive Action where
  | destroyStream (id : Nat)
  | killProcess (id : Nat)
deriving DecidableEq

/-- `cleanup` from `src/server.js` lines 159-166: destroy every stream in
`activeStreams`, empty the array, kill the process if present and null it
out.  Returns the updated registry together with the list of effects the
invocation performs. -/
def cleanup (r : Resources) : Resources × List Action :=
  (⟨[], none⟩,
    r.activeStreams.map Action.destroyStream ++
      (match r.ffmpegProcess with
        | some p => [Action.killProcess p]
        | none => []))

/-- The extraction collaborator's metadata for one item: the variant list
and the title (`info.formats`, `info.videoDetails.title`). -/
structure Info where
  formats : List Format
  title : String
deriving DecidableEq

deriving instance DecidableEq for Except

/-- The inputs that determine the pre-stream decisions of the
`/api/media` handler: whether the URL validated, the outcome of
`ytdl.getInfo` (error message or metadata), and the query parameters
(with their defaults already applied, as in the destructuring at
`src/server.js` lines 107-115). -/
structure MediaRequest where
  urlOk : Bool
  infoResult : Except String Info
  type : String
  quality : Option String
  enableFfmpeg : String
  rangeHeader : Option String
  mode : String
  downloadTarget : String
deriving DecidableEq

/-- The pre-stream commitments of one streaming branch of the handler:
which branch ran, the HTTP status, the range passed to the upstream
fetch (`ytdlOptions.range`), the `Content-Range` header
(start, end, the format's `contentLength`) and the `Content-Length`
header, each `none` when not set. -/
structure StreamPlan where
  branch : String
  status : Nat
  upstreamRange : Option RangeWindow
  contentRangeHeader : Option (Nat × Nat × Option Nat)
  contentLengthHeader : Option Nat
deriving DecidableEq

/-- The handler's outcome before media bytes flow: an early JSON error
(400 invalid URL, mapped extraction error, 409 no viable format,
500 unable to stream) or a streaming branch with its plan. -/
inductive MediaOutcome where
  | invalidUrl
  | extractionError (status : Nat) (message : String)
  | noViableFormat
  | streamPlan (plan : StreamPlan)
  | unableToStream
deriving DecidableEq

/-- The HTTP status each outcome responds with (`res.status(...)` in the
handler; a stream plan's status is the one set before piping). -/
def outcomeStatus : MediaOutcome → Nat
  | MediaOutcome.invalidUrl => 400
  | MediaOutcome.extractionError s _ => s
  | MediaOutcome.noViableFormat => 409
  | MediaOutcome.streamPlan p => p.status
  | MediaOutcome.unableToStream => 500

/-- Whether the outcome is a structured JSON error body (every outcome
except a streaming branch responds with `res.json({error})`). -/
def outcomeIsJsonError : MediaOutcome → Bool
  | MediaOutcome.streamPlan _ => false
  | _ => true

/-- The decision structure of `app.get('/api/media')`
(`src/server.js` lines 106-293), up to the point where bytes start
flowing.  Filename computation, disk writing and the mp3 re-encode do
not affect the tracked fields: the audio branch (lines 172-219) never
touches the negotiated range, sets no status override and no
`Content-Range`/`Content-Length`; only the single-muxed-format video
branch (lines 221-258) uses the range.  A format's `contentLength`
arrives as a string in ytdl-core, so `some 0` is truthy at line 240 and
is modelled by `isSome`. -/
def mediaHandler (req : MediaRequest) : MediaOutcome :=
  if req.urlOk = false then MediaOutcome.invalidUrl
  else
    match req.infoResult with
    | Except.error e =>
      MediaOutcome.extractionError (mapYtdlError e).1 (mapYtdlError e).2
    | Except.ok info =>
      let isDownload := req.mode == "download"
      let useFfmpeg := req.enableFfmpeg == "true" || req.enableFfmpeg == "1"
      let formatSelection := pickFormat info.formats req.type req.quality useFfmpeg
      if formatSelection.format = none ∧ formatSelection.videoFormat = none then
        MediaOutcome.noViableFormat
      else
        let range := parseRangeHeader req.rangeHeader
          (formatSelection.format.bind (fun f => f.contentLength))
        let isDisk := isDownload && req.downloadTarget == "disk"
        if req.type == "audio" then
          MediaOutcome.streamPlan ⟨"audio", 200, none, none, none⟩
        else
          match formatSelection.format with
          | some format =>
            match range with
            | some w =>
              if isDisk then
                MediaOutcome.streamPlan ⟨"muxedVideo", 200, some w, none, none⟩
              else
                MediaOutcome.streamPlan ⟨"muxedVideo", 206, some w,
                  some (w.start, w.endIdx, format.contentLength),
                  some (w.endIdx - w.start + 1)⟩
            | none =>
              if isDisk = false ∧ format.contentLength.isSome then
                MediaOutcome.streamPlan ⟨"muxedVideo", 200, none, none, format.contentLength⟩
              else
                MediaOutcome.streamPlan ⟨"muxedVideo", 200, none, none, none⟩
          | none =>
            if useFfmpeg && formatSelection.videoFormat.isSome
                && formatSelection.audioFormat.isSome then
              MediaOutcome.streamPlan ⟨"externalMux", 200, none, none, none⟩
            else
              MediaOutcome.unableToStream

/-! ### Lemmas about the quality rule -/

theorem maxByRank_mem : ∀ {l : List Format} {f : Format},
    ytdl.maxByRank l = some f → f ∈ l := by
  intro l
  induction l with
  | nil => intro f h; simp [ytdl.maxByRank] at h
  | cons a t ih =>
    intro f h
    unfold ytdl.maxByRank at h
    split at h
    · simp at h
      simp [h]
    · split at h
      · rename_i g hg _
        simp at h
        subst h
        exact List.mem_cons_of_mem a (ih hg)
      · simp at h
        simp [h]

theorem minByRank_mem : ∀ {l : List Format} {f : Format},
    ytdl.minByRank l = some f → f ∈ l := by
  intro l
  induction l with
  | nil => intro f h; simp [ytdl.minByRank] at h
  | cons a t ih =>
    intro f h
    unfold ytdl.minByRank at h
    split at h
    · simp at h
      simp [h]
    · split at h
      · rename_i g hg _
        simp at h
        subst h
        exact List.mem_cons_of_mem a (ih hg)
      · simp at h
        simp [h]

theorem maxByRank_isSome (l : List Format) (h : l ≠ []) :
    (ytdl.maxByRank l).isSome = true := by
  cases l with
  | nil => exact absurd rfl h
  | cons a t =>
    unfold ytdl.maxByRank
    split
    · rfl
    · split <;> rfl

theorem minByRank_isSome (l : List Format) (h : l ≠ []) :
    (ytdl.minByRank l).isSome = true := by
  cases l with
  | nil => exact absurd rfl h
  | cons a t =>
    unfold ytdl.minByRank
    split
    · rfl
    · split <;> rfl

theorem chooseFormat_mem {l : List Format} {q : Quality} {f : Format}
    (h : ytdl.chooseFormat l q = some f) : f ∈ l := by
  cases q with
  | highest => exact maxByRank_mem h
  | lowest => exact minByRank_mem h
  | exact id =>
    have hch : ytdl.chooseFormat l (Quality.exact id) =
        (match l.find? (fun f => f.itag == id) with
          | some g => some g
          | none => ytdl.maxByRank l) := rfl
    rw [hch] at h
    cases hg : l.find? (fun f => f.itag == id) with
    | some g =>
      rw [hg] at h
      simp at h
      subst h
      exact List.mem_of_find?_eq_some hg
    | none =>
      rw [hg] at h
      exact maxByRank_mem h

theorem chooseFormat_isSome (l : List Format) (q : Quality) (h : l ≠ []) :
    (ytdl.chooseFormat l q).isSome = true := by
  cases q with
  | highest => exact maxByRank_isSome l h
  | lowest => exact minByRank_isSome l h
  | exact id =>
    have hch : ytdl.chooseFormat l (Quality.exact id) =
        (match l.find? (fun f => f.itag == id) with
          | some g => some g
          | none => ytdl.maxByRank l) := rfl
    rw [hch]
    cases hg : l.find? (fun f => f.itag == id) with
    | some g => rfl
    | none => exact maxByRank_isSome l h

theorem chooseFormat_nil (q : Quality) : ytdl.chooseFormat [] q = none := by
  cases q <;> rfl

/-! ### Branch shapes of `pickFormat` -/

theorem pickFormat_eq_audio (formats : List Format) (type : String)
    (quality : Option String) (enableFfmpeg : Bool)
    (hta : (type == "audio") = true) :
    pickFormat formats type quality enableFfmpeg =
      ⟨ytdl.chooseFormat (ytdl.filterFormatsAudioonly formats) (parseQuality quality),
        none, none, false⟩ := by
  unfold pickFormat
  simp only [hta, if_true]

theorem pickFormat_eq_muxed (formats : List Format) (type : String)
    (quality : Option String) (enableFfmpeg : Bool)
    (hta : (type == "audio") = false)
    (hlen : (formats.filter (fun fmt => fmt.hasVideo && fmt.hasAudio)).length ≠ 0) :
    pickFormat formats type quality enableFfmpeg =
      ⟨ytdl.chooseFormat (formats.filter (fun fmt => fmt.hasVideo && fmt.hasAudio))
          (parseQuality quality), none, none, true⟩ := by
  unfold pickFormat
  simp only [hta, Bool.false_eq_true, if_false, if_pos hlen]

theorem pickFormat_eq_disabled (formats : List Format) (type : String)
    (quality : Option String)
    (hta : (type == "audio") = false)
    (hlen : ¬(formats.filter (fun fmt => fmt.hasVideo && fmt.hasAudio)).length ≠ 0) :
    pickFormat formats type quality false = ⟨none, none, none, false⟩ := by
  unfold pickFormat
  simp [hta, hlen]

theorem pickFormat_eq_pair (formats : List Format) (type : String)
    (quality : Option String)
    (hta : (type == "audio") = false)
    (hlen : ¬(formats.filter (fun fmt => fmt.hasVideo && fmt.hasAudio)).length ≠ 0) :
    pickFormat formats type quality true =
      ⟨none,
        ytdl.chooseFormat (formats.filter (fun fmt => fmt.hasVideo && !fmt.hasAudio))
          (parseQuality quality),
        ytdl.chooseFormat (formats.filter (fun fmt => fmt.hasAudio && !fmt.hasVideo))
          Quality.highest, false⟩ := by
  unfold pickFormat
  have htrue : ¬(true = false) := by decide
  simp only [hta, Bool.false_eq_true, if_false, if_neg hlen, if_neg htrue]

/-! ### Concrete variant fixtures used by the witnesses -/

/-- A muxed (audio+video) variant. -/
def fmtMuxed : Format := ⟨18, true, true, 360, some "mp4", some "video/mp4", some 5000⟩

/-- A video-only variant. -/
def fmtVideoOnly : Format := ⟨137, true, false, 1080, some "mp4", some "video/mp4", some 90000⟩

/-- An audio-only variant. -/
def fmtAudioOnly : Format := ⟨140, false, true, 128, some "m4a", some "audio/mp4", some 3000⟩

/-! ### Claims about format selection -/

/-- Claim C1: for every variant set containing at least one variant with
`hasVideo` and `hasAudio` both true, selection with `type = video`
returns a single chosen muxed variant (`isMuxed = true`) and never the
external-mux pair shape, for every quality request and every value of
the external-mux flag. -/
theorem video_muxed_single (formats : List Format) (quality : Option String)
    (enableFfmpeg : Bool) (m : Format) (hm : m ∈ formats)
    (hmv : m.hasVideo = true) (hma : m.hasAudio = true) :
    ∃ f, pickFormat formats "video" quality enableFfmpeg = ⟨some f, none, none, true⟩ ∧
      f.hasVideo = true ∧ f.hasAudio = true := by
  have hmem : m ∈ formats.filter (fun fmt => fmt.hasVideo && fmt.hasAudio) :=
    List.mem_filter.mpr ⟨hm, by simp [hmv, hma]⟩
  have hne : formats.filter (fun fmt => fmt.hasVideo && fmt.hasAudio) ≠ [] :=
    List.ne_nil_of_mem hmem
  obtain ⟨f, hf⟩ := Option.isSome_iff_exists.mp
    (chooseFormat_isSome _ (parseQuality quality) hne)
  have hlen : (formats.filter (fun fmt => fmt.hasVideo && fmt.hasAudio)).length ≠ 0 := by
    simpa [List.length_eq_zero] using hne
  have hfmem := chooseFormat_mem hf
  have hprops := List.mem_filter.mp hfmem
  refine ⟨f, ?_, ?_, ?_⟩
  · unfold pickFormat
    have hta : (("video" : String) == "audio") = false := by decide
    simp only [hta, Bool.false_eq_true, if_false, if_pos hlen, hf]
  · exact (Bool.and_eq_true _ _).mp hprops.2 |>.1
  · exact (Bool.and_eq_true _ _).mp hprops.2 |>.2

/-- Witness for C1 at a concrete variant set holding a muxed variant. -/
theorem video_muxed_single_witness :
    ∃ f, pickFormat [fmtMuxed, fmtVideoOnly] "video" none true = ⟨some f, none, none, true⟩ ∧
      f.hasVideo = true ∧ f.hasAudio = true :=
  video_muxed_single [fmtMuxed, fmtVideoOnly] none true fmtMuxed (by decide)
    (by decide) (by decide)

/-- Claim C2: for every candidate list and every `ExactID(id)` request
where `id` equals no candidate's identifier, selection coincides with a
`Highest` request on the same candidates, and never fails on a nonempty
candidate list. -/
theorem exact_id_falls_back_to_highest (l : List Format) (id : Nat)
    (h : ∀ f ∈ l, f.itag ≠ id) :
    ytdl.chooseFormat l (Quality.exact id) = ytdl.chooseFormat l Quality.highest ∧
    (l ≠ [] → (ytdl.chooseFormat l (Quality.exact id)).isSome = true) := by
  have hfind : l.find? (fun f => f.itag == id) = none := by
    apply List.find?_eq_none.mpr
    intro x hx
    simp [h x hx]
  constructor
  · simp [ytdl.chooseFormat, hfind]
  · intro hne
    exact chooseFormat_isSome l (Quality.exact id) hne

/-- Witness for C2 at a concrete candidate list and an unmatched id. -/
theorem exact_id_falls_back_to_highest_witness :
    ytdl.chooseFormat [fmtMuxed, fmtAudioOnly] (Quality.exact 999) =
      ytdl.chooseFormat [fmtMuxed, fmtAudioOnly] Quality.highest ∧
    ([fmtMuxed, fmtAudioOnly] ≠ ([] : List Format) →
      (ytdl.chooseFormat [fmtMuxed, fmtAudioOnly] (Quality.exact 999)).isSome = true) :=
  exact_id_falls_back_to_highest [fmtMuxed, fmtAudioOnly] 999 (by decide)

/-- Counterexample to claim C3 as stated: a variant set whose only
variant is muxed (`hasAudio = true`, but also `hasVideo = true`) leaves
the audio-only restriction empty, and selection with `type = audio`
yields no format at all instead of falling back to the variants with
`hasAudio` of any kind. -/
theorem audio_fallback_counterexample :
    (pickFormat [fmtMuxed] "audio" (some "highest") false).format = none ∧
    fmtMuxed.hasAudio = true := by decide

/-- Claim C3 (amended): selection with `type = audio` restricts to the
variants with `hasAudio ∧ ¬hasVideo` and chooses among those by the
quality rule; when that restriction is empty, selection yields no format
(there is no fallback to the variants with `hasAudio` of any kind), and
the external-mux pair fields are never populated. -/
theorem audio_restricts_to_audioonly (formats : List Format)
    (quality : Option String) (enableFfmpeg : Bool) :
    (pickFormat formats "audio" quality enableFfmpeg).format =
      ytdl.chooseFormat (ytdl.filterFormatsAudioonly formats) (parseQuality quality) ∧
    (∀ f, (pickFormat formats "audio" quality enableFfmpeg).format = some f →
      f.hasAudio = true ∧ f.hasVideo = false) ∧
    (formats.filter (fun f => f.hasAudio && !f.hasVideo) = [] →
      (pickFormat formats "audio" quality enableFfmpeg).format = none) ∧
    (pickFormat formats "audio" quality enableFfmpeg).videoFormat = none ∧
    (pickFormat formats "audio" quality enableFfmpeg).audioFormat = none := by
  have hpick : pickFormat formats "audio" quality enableFfmpeg =
      ⟨ytdl.chooseFormat (ytdl.filterFormatsAudioonly formats) (parseQuality quality),
        none, none, false⟩ := by
    unfold pickFormat
    have hta : (("audio" : String) == "audio") = true := by decide
    simp only [hta, if_true]
  refine ⟨by rw [hpick], ?_, ?_, by rw [hpick], by rw [hpick]⟩
  · intro f hf
    rw [hpick] at hf
    have hmem := chooseFormat_mem hf
    have hprops := List.mem_filter.mp hmem
    have hb := (Bool.and_eq_true _ _).mp hprops.2
    exact ⟨hb.1, by simpa using hb.2⟩
  · intro hempty
    rw [hpick]
    simp only [ytdl.filterFormatsAudioonly]
    rw [hempty]
    exact chooseFormat_nil _

/-- Witness for the amended C3 at a concrete variant set whose
audio-only restriction is empty. -/
theorem audio_restricts_to_audioonly_witness :
    (pickFormat [fmtMuxed] "audio" none false).format = none :=
  (audio_restricts_to_audioonly [fmtMuxed] none false).2.2.1 (by decide)

/-- Claim C4: whenever selection returns the external-mux pair, the
video member is chosen among the `hasVideo ∧ ¬hasAudio` variants by the
requested quality while the audio member is chosen among the
`hasAudio ∧ ¬hasVideo` variants by `Highest`, for every requested
quality. -/
theorem pair_members_quality (formats : List Format) (type : String)
    (quality : Option String) (enableFfmpeg : Bool) (vf af : Format)
    (hv : (pickFormat formats type quality enableFfmpeg).videoFormat = some vf)
    (ha : (pickFormat formats type quality enableFfmpeg).audioFormat = some af) :
    vf.hasVideo = true ∧ vf.hasAudio = false ∧
    af.hasAudio = true ∧ af.hasVideo = false ∧
    ytdl.chooseFormat (formats.filter (fun fmt => fmt.hasVideo && !fmt.hasAudio))
      (parseQuality quality) = some vf ∧
    ytdl.chooseFormat (formats.filter (fun fmt => fmt.hasAudio && !fmt.hasVideo))
      Quality.highest = some af := by
  by_cases hta : (type == "audio") = true
  · rw [pickFormat_eq_audio formats type quality enableFfmpeg hta] at hv
    exact absurd hv (by simp)
  · have hta' : (type == "audio") = false := by simpa using hta
    by_cases hlen : (formats.filter (fun fmt => fmt.hasVideo && fmt.hasAudio)).length ≠ 0
    · rw [pickFormat_eq_muxed formats type quality enableFfmpeg hta' hlen] at hv
      exact absurd hv (by simp)
    · cases henf : enableFfmpeg with
      | false =>
        rw [henf] at hv
        rw [pickFormat_eq_disabled formats type quality hta' hlen] at hv
        exact absurd hv (by simp)
      | true =>
        rw [henf] at hv ha
        rw [pickFormat_eq_pair formats type quality hta' hlen] at hv ha
        simp only [Selection.videoFormat] at hv
        simp only [Selection.audioFormat] at ha
        have hvmem := List.mem_filter.mp (chooseFormat_mem hv)
        have hamem := List.mem_filter.mp (chooseFormat_mem ha)
        have hvb := (Bool.and_eq_true _ _).mp hvmem.2
        have hab := (Bool.and_eq_true _ _).mp hamem.2
        exact ⟨hvb.1, by simpa using hvb.2, hab.1, by simpa using hab.2, hv, ha⟩

/-- Witness for C4 at a split-only variant set with a `lowest` request. -/
theorem pair_members_quality_witness :
    fmtVideoOnly.hasVideo = true ∧ fmtVideoOnly.hasAudio = false ∧
    fmtAudioOnly.hasAudio = true ∧ fmtAudioOnly.hasVideo = false ∧
    ytdl.chooseFormat
      ([fmtVideoOnly, fmtAudioOnly].filter (fun fmt => fmt.hasVideo && !fmt.hasAudio))
      (parseQuality (some "lowest")) = some fmtVideoOnly ∧
    ytdl.chooseFormat
      ([fmtVideoOnly, fmtAudioOnly].filter (fun fmt => fmt.hasAudio && !fmt.hasVideo))
      Quality.highest = some fmtAudioOnly :=
  pair_members_quality [fmtVideoOnly, fmtAudioOnly] "video" (some "lowest") true
    fmtVideoOnly fmtAudioOnly (by decide) (by decide)

/-! ### Claims about range negotiation -/

/-- Counterexample to claim C5 as stated: with a known total length of
1000, the header `bytes=2000-3000` is returned as the window
`{start := 2000, end := 3000}`, whose bounds are not within
`[0, totalLength-1] = [0, 999]` — the parser never clamps an explicit
start or end against the total length. -/
theorem range_window_exceeds_total :
    parseRangeHeader (some "bytes=2000-3000") (some 1000) = some ⟨2000, 3000⟩ ∧
    ¬(2000 ≤ 1000 - 1) ∧ ¬(3000 ≤ 1000 - 1) := by decide

theorem parseRangeHeader_some (h : String) (sz : Nat) :
    parseRangeHeader (some h) (some sz) =
      (if sz = 0 then none
        else
          match findRangeMatch h.toList with
          | none => none
          | some (d1, d2) =>
            let start := digitsToNat d1
            let e := if d2 ≠ [] then digitsToNat d2 else sz - 1
            if start > e then none else some ⟨start, e⟩) := rfl

/-- Claim C5 (amended): every window returned by range negotiation with
a known total length satisfies `start ≤ end` (both are naturally
nonnegative), and a header with a missing end part defaults the end to
`totalLength - 1`, so `bytes=100-` against length 1000 yields
`{start := 100, end := 999}`; an explicit start or end is however not
clamped to `[0, totalLength-1]`. -/
theorem range_window_ordered :
    (∀ (h : String) (sz : Nat) (w : RangeWindow),
      parseRangeHeader (some h) (some sz) = some w → w.start ≤ w.endIdx) ∧
    parseRangeHeader (some "bytes=100-") (some 1000) = some ⟨100, 999⟩ := by
  constructor
  · intro h sz w hp
    rw [parseRangeHeader_some] at hp
    by_cases hsz : sz = 0
    · rw [if_pos hsz] at hp
      exact absurd hp (by simp)
    · rw [if_neg hsz] at hp
      cases hfm : findRangeMatch h.toList with
      | none =>
        rw [hfm] at hp
        exact absurd hp (by simp)
      | some p =>
        obtain ⟨d1, d2⟩ := p
        rw [hfm] at hp
        dsimp only at hp
        by_cases hgt : digitsToNat d1 > (if d2 ≠ [] then digitsToNat d2 else sz - 1)
        · rw [if_pos hgt] at hp
          exact absurd hp (by simp)
        · rw [if_neg hgt] at hp
          simp only [Option.some.injEq] at hp
          subst hp
          exact Nat.le_of_not_lt hgt
  · decide

/-- Witness for the amended C5: the quantified part applied to the
spec's own example header. -/
theorem range_window_ordered_witness :
    parseRangeHeader (some "bytes=0-499") (some 1000) = some ⟨0, 499⟩ ∧ 0 ≤ 499 :=
  ⟨by decide, range_window_ordered.1 "bytes=0-499" 1000 ⟨0, 499⟩ (by decide)⟩

/-- Claim C6: range negotiation returns `None` — and, being a total
function on its arguments, never raises — when the header is absent,
when the total length is unknown, when the parsed start exceeds the
parsed end, and when the header is malformed (which subsumes a
non-numeric start, since the pattern requires at least one digit
after `bytes=`). -/
theorem negotiate_none_cases :
    (∀ sz, parseRangeHeader none sz = none) ∧
    (∀ h, parseRangeHeader h none = none) ∧
    (∀ (h : String) (sz : Nat), findRangeMatch h.toList = none →
      parseRangeHeader (some h) (some sz) = none) ∧
    (∀ (h : String) (sz : Nat) (d1 d2 : List Char),
      findRangeMatch h.toList = some (d1, d2) → d2 ≠ [] →
      digitsToNat d2 < digitsToNat d1 →
      parseRangeHeader (some h) (some sz) = none) := by
  refine ⟨?_, ?_, ?_, ?_⟩
  · intro sz; cases sz <;> rfl
  · intro h; cases h <;> rfl
  · intro h sz hm
    rw [parseRangeHeader_some]
    by_cases hsz : sz = 0
    · rw [if_pos hsz]
    · rw [if_neg hsz, hm]
  · intro h sz d1 d2 hm hne hlt
    rw [parseRangeHeader_some]
    by_cases hsz : sz = 0
    · rw [if_pos hsz]
    · rw [if_neg hsz, hm]
      dsimp only
      rw [if_pos hne]
      rw [if_pos]
      exact hlt

/-- Witness for C6: a start-exceeds-end header yields `None`. -/
theorem negotiate_none_cases_witness :
    parseRangeHeader (some "bytes=9-2") (some 50) = none :=
  negotiate_none_cases.2.2.2 "bytes=9-2" 50 ['9'] ['2'] (by decide) (by decide) (by decide)

/-! ### Claims about teardown -/

theorem count_map_destroy (l : List Nat) (s : Nat) :
    (l.map Action.destroyStream).count (Action.destroyStream s) = l.count s := by
  induction l with
  | nil => rfl
  | cons a t ih =>
    by_cases hsa : s = a
    · subst hsa
      simp [List.count_cons, ih]
    · simp [List.count_cons, ih, hsa]

theorem count_map_destroy_kill (l : List Nat) (p : Nat) :
    (l.map Action.destroyStream).count (Action.killProcess p) = 0 := by
  rw [List.count_eq_zero]
  simp

/-- Claim C7: teardown is idempotent.  Running `cleanup` twice in a row
gives the same final registry state as running it once, the second run
performs no actions at all (so no resource is re-closed and no repeated
close can error), each registered stream is destroyed at most once
across both runs (for a registry without duplicate registrations, as the
handler's pushes produce), and the external process is killed at most
once. -/
theorem cleanup_idempotent (r : Resources) :
    (cleanup (cleanup r).1).1 = (cleanup r).1 ∧
    (cleanup (cleanup r).1).2 = [] ∧
    (r.activeStreams.Nodup → ∀ s,
      ((cleanup r).2 ++ (cleanup (cleanup r).1).2).count (Action.destroyStream s) ≤ 1) ∧
    (∀ p, ((cleanup r).2 ++ (cleanup (cleanup r).1).2).count (Action.killProcess p) ≤ 1) := by
  obtain ⟨streams, proc⟩ := r
  refine ⟨rfl, rfl, ?_, ?_⟩
  · intro hnd s
    have hcount : streams.count s ≤ 1 := List.nodup_iff_count_le_one.mp hnd s
    cases proc with
    | none =>
      simpa [cleanup, count_map_destroy] using hcount
    | some p =>
      simpa [cleanup, List.count_append, count_map_destroy, List.count_cons] using hcount
  · intro p
    cases proc with
    | none =>
      simp [cleanup, count_map_destroy_kill]
    | some q =>
      by_cases hpq : p = q
      · subst hpq
        simp [cleanup, List.count_append, count_map_destroy_kill, List.count_cons]
      · simp [cleanup, List.count_append, count_map_destroy_kill, List.count_cons, hpq]

/-- Witness for C7 at a concrete registry with two streams and a
process. -/
theorem cleanup_idempotent_witness :
    (cleanup (cleanup ⟨[1, 2], some 7⟩).1).1 = (cleanup ⟨[1, 2], some 7⟩).1 ∧
    ((cleanup (⟨[1, 2], some 7⟩ : Resources)).2 ++
      (cleanup (cleanup ⟨[1, 2], some 7⟩).1).2).count (Action.destroyStream 1) ≤ 1 :=
  ⟨(cleanup_idempotent ⟨[1, 2], some 7⟩).1,
    (cleanup_idempotent ⟨[1, 2], some 7⟩).2.2.1 (by decide) 1⟩

/-! ### Claims about error mapping -/

/-- Claim C9: the extraction-failure mapping returns, in the source's
first-match order over the message, 403 for private content, 403 for
age-restricted content, 410 for removed content, 403 for forbidden
access, 400 for live content, and 500 for every message matching none
of the recognized reasons. -/
theorem extraction_status_mapping (m : String) :
    (hasSubstr m "private" = true → (mapYtdlError m).1 = 403) ∧
    (hasSubstr m "private" = false → hasSubstr m "age-restricted" = true →
      (mapYtdlError m).1 = 403) ∧
    (hasSubstr m "private" = false → hasSubstr m "age-restricted" = false →
      hasSubstr m "410" = true → (mapYtdlError m).1 = 410) ∧
    (hasSubstr m "private" = false → hasSubstr m "age-restricted" = false →
      hasSubstr m "410" = false → hasSubstr m "403" = true →
      (mapYtdlError m).1 = 403) ∧
    (hasSubstr m "private" = false → hasSubstr m "age-restricted" = false →
      hasSubstr m "410" = false → hasSubstr m "403" = false →
      hasSubstr m "Live" = true → (mapYtdlError m).1 = 400) ∧
    (hasSubstr m "private" = false → hasSubstr m "age-restricted" = false →
      hasSubstr m "410" = false → hasSubstr m "403" = false →
      hasSubstr m "Live" = false → (mapYtdlError m).1 = 500) := by
  refine ⟨?_, ?_, ?_, ?_, ?_, ?_⟩ <;> intros <;> simp_all [mapYtdlError]

/-- Witness for C9: a removed-content message maps to 410. -/
theorem extraction_status_mapping_witness :
    (mapYtdlError "Status code: 410").1 = 410 :=
  (extraction_status_mapping "Status code: 410").2.2.1 (by decide) (by decide) (by decide)

/-! ### Claims about the endpoint -/

/-- Claim C8: a `type = video` request against a variant set holding
only split video-only and audio-only variants, with external muxing
disabled, makes selection yield no usable format and the endpoint
answer 409 with a JSON error — an early outcome produced before any
streaming branch (and hence before any media byte) is reached. -/
theorem split_only_video_no_mux_409 (req : MediaRequest) (info : Info)
    (hurl : req.urlOk = true)
    (hinfo : req.infoResult = Except.ok info)
    (htype : req.type = "video")
    (hff1 : req.enableFfmpeg ≠ "true") (hff2 : req.enableFfmpeg ≠ "1")
    (hsplit : ∀ f ∈ info.formats,
      (f.hasVideo = true ∧ f.hasAudio = false) ∨
      (f.hasAudio = true ∧ f.hasVideo = false)) :
    mediaHandler req = MediaOutcome.noViableFormat ∧
    (pickFormat info.formats req.type req.quality false).format = none ∧
    (pickFormat info.formats req.type req.quality false).videoFormat = none ∧
    outcomeStatus (mediaHandler req) = 409 ∧
    outcomeIsJsonError (mediaHandler req) = true := by
  have hmux : info.formats.filter (fun fmt => fmt.hasVideo && fmt.hasAudio) = [] := by
    rw [List.filter_eq_nil_iff]
    intro f hf
    rcases hsplit f hf with ⟨hv, ha⟩ | ⟨ha, hv⟩ <;> simp [hv, ha]
  have hta : (req.type == "audio") = false := by
    rw [htype]
    decide
  have hlen : ¬(info.formats.filter (fun fmt => fmt.hasVideo && fmt.hasAudio)).length ≠ 0 := by
    simp [hmux]
  have hpick := pickFormat_eq_disabled info.formats req.type req.quality hta hlen
  have hff : (req.enableFfmpeg == "true" || req.enableFfmpeg == "1") = false := by
    simp [hff1, hff2]
  have hmain : mediaHandler req = MediaOutcome.noViableFormat := by
    unfold mediaHandler
    rw [hinfo]
    simp [hurl, hff, hpick]
  exact ⟨hmain, by rw [hpick], by rw [hpick], by rw [hmain]; rfl, by rw [hmain]; rfl⟩

/-- Witness for C8 at a concrete request over split-only variants. -/
theorem split_only_video_no_mux_409_witness :
    mediaHandler ⟨true, Except.ok ⟨[fmtVideoOnly, fmtAudioOnly], "t"⟩, "video", none,
        "false", none, "stream", "response"⟩ = MediaOutcome.noViableFormat ∧
    (pickFormat [fmtVideoOnly, fmtAudioOnly] "video" none false).format = none ∧
    (pickFormat [fmtVideoOnly, fmtAudioOnly] "video" none false).videoFormat = none ∧
    outcomeStatus (mediaHandler ⟨true, Except.ok ⟨[fmtVideoOnly, fmtAudioOnly], "t"⟩,
      "video", none, "false", none, "stream", "response"⟩) = 409 ∧
    outcomeIsJsonError (mediaHandler ⟨true, Except.ok ⟨[fmtVideoOnly, fmtAudioOnly], "t"⟩,
      "video", none, "false", none, "stream", "response"⟩) = true :=
  split_only_video_no_mux_409 _ ⟨[fmtVideoOnly, fmtAudioOnly], "t"⟩ rfl rfl rfl
    (by decide) (by decide) (by decide)

/-- Claim C10: a `type = audio` request never has the negotiated range
applied — the plan passes no window to the upstream fetch, the status is
never 206, and no `Content-Range` header is set; conversely any plan
that uses the range in one of these ways comes from the
single-muxed-variant video branch. -/
theorem audio_requests_ignore_range (req : MediaRequest) (plan : StreamPlan)
    (h : mediaHandler req = MediaOutcome.streamPlan plan) :
    (req.type = "audio" → plan.upstreamRange = none ∧ plan.status ≠ 206 ∧
      plan.contentRangeHeader = none) ∧
    ((plan.upstreamRange ≠ none ∨ plan.status = 206 ∨ plan.contentRangeHeader ≠ none) →
      plan.branch = "muxedVideo") := by
  unfold mediaHandler at h
  dsimp only at h
  split at h
  next => exact absurd h (by simp)
  next =>
    split at h
    next => exact absurd h (by simp)
    next info =>
      split at h
      next hsel => exact absurd h (by simp)
      next hsel =>
        split at h
        next htype =>
          simp only [MediaOutcome.streamPlan.injEq] at h
          subst h
          exact ⟨fun _ => ⟨rfl, by decide, rfl⟩, fun hc => absurd hc (by simp)⟩
        next htype =>
          have hneq : req.type ≠ "audio" := by simpa using htype
          split at h
          next fmt hfmt =>
            split at h
            next w hw =>
              split at h
              next hdisk =>
                simp only [MediaOutcome.streamPlan.injEq] at h
                subst h
                exact ⟨fun ht => absurd ht hneq, fun _ => rfl⟩
              next hdisk =>
                simp only [MediaOutcome.streamPlan.injEq] at h
                subst h
                exact ⟨fun ht => absurd ht hneq, fun _ => rfl⟩
            next hw =>
              split at h
              next hcl =>
                simp only [MediaOutcome.streamPlan.injEq] at h
                subst h
                exact ⟨fun ht => absurd ht hneq, fun _ => rfl⟩
              next hcl =>
                simp only [MediaOutcome.streamPlan.injEq] at h
                subst h
                exact ⟨fun ht => absurd ht hneq, fun _ => rfl⟩
          next hfmt =>
            split at h
            next hff =>
              simp only [MediaOutcome.streamPlan.injEq] at h
              subst h
              exact ⟨fun ht => absurd ht hneq, fun hc => absurd hc (by simp)⟩
            next hff => exact absurd h (by simp)

/-- Witness for C10 at a concrete audio request that reaches the
streaming branch. -/
theorem audio_requests_ignore_range_witness :
    ((⟨"audio", 200, none, none, none⟩ : StreamPlan).upstreamRange = none ∧
      (⟨"audio", 200, none, none, none⟩ : StreamPlan).status ≠ 206 ∧
      (⟨"audio", 200, none, none, none⟩ : StreamPlan).contentRangeHeader = none) :=
  (audio_requests_ignore_range
    ⟨true, Except.ok ⟨[fmtAudioOnly], "t"⟩, "audio", none, "false",
      some "bytes=0-10", "stream", "response"⟩
    ⟨"audio", 200, none, none, none⟩ (by decide)).1 rfl

end PlayerAudio
